import Mathlib

/-!
Shallow embedding of `golden_section_search.py` (function
`golden_section_search`, lines 23-78) and proofs of the specification's
claims about it.

The Python code works on IEEE doubles; as usual for this kind of
verification we idealise the arithmetic to an ordered field (instantiated
at `ℝ` for the actual constant `gr = (√5 - 1)/2`).  The loop state carries,
besides the program variables `a b c d fc fd it`, an instrumentation field
`pts` recording every argument at which the objective `f` has been
evaluated (most recent first); the source calls `f` exactly at the two
initialisation sites (lines 45-46) and once in each loop branch
(lines 56, 60, 65, 69), and `pts` is extended exactly at the embeddings of
those four sites, so `pts.length` is the number of calls to `f`.
-/

namespace GoldenSection

/-- State of the golden-section search loop of `golden_section_search`
(lines 42-47 initialise it): endpoints `a b`, interior points `c d`,
cached values `fc fd`, iteration counter `it`, and the instrumentation
trace `pts` of all arguments passed to `f` so far. -/
structure GSState (K : Type) where
  a : K
  b : K
  c : K
  d : K
  fc : K
  fd : K
  it : Nat
  pts : List K

variable {K : Type} [LinearOrderedField K]

/-- Body of the first branch of the loop (lines 54-56 and 63-65):
`b, d, fd = d, c, fc; c = b - gr*(b - a); fc = f(c)` — the bracket
becomes `[a, d]`. -/
def keepLeft (f : K → K) (gr : K) (s : GSState K) : GSState K :=
  let b := s.d
  let d := s.c
  let fd := s.fc
  let c := b - gr * (b - s.a)
  { a := s.a, b := b, c := c, d := d, fc := f c, fd := fd,
    it := s.it + 1, pts := c :: s.pts }

/-- Body of the second branch of the loop (lines 58-60 and 67-69):
`a, c, fc = c, d, fd; d = a + gr*(b - a); fd = f(d)` — the bracket
becomes `[c, b]`. -/
def keepRight (f : K → K) (gr : K) (s : GSState K) : GSState K :=
  let a := s.c
  let c := s.d
  let fc := s.fd
  let d := a + gr * (s.b - a)
  { a := a, b := s.b, c := c, d := d, fc := fc, fd := f d,
    it := s.it + 1, pts := d :: s.pts }

/-- One iteration of the loop body (lines 52-70), including the
`it += 1` of line 70: minimisation compares `fc < fd`, maximisation
compares `fc > fd`, with identical branch bodies. -/
def gsStep (f : K → K) (gr : K) (minimize : Bool) (s : GSState K) : GSState K :=
  if minimize then
    if s.fc < s.fd then keepLeft f gr s else keepRight f gr s
  else
    if s.fc > s.fd then keepLeft f gr s else keepRight f gr s

/-- The `while (b - a) > tol and it < max_iter` loop of lines 49-70. -/
def gsLoop (f : K → K) (gr tol : K) (minimize : Bool) (maxIter : Nat)
    (s : GSState K) : GSState K :=
  if h : tol < s.b - s.a ∧ s.it < maxIter then
    gsLoop f gr tol minimize maxIter (gsStep f gr minimize s)
  else s
termination_by maxIter - s.it
decreasing_by
  have hit : (gsStep f gr minimize s).it = s.it + 1 := by
    unfold gsStep keepLeft keepRight
    split <;> split <;> rfl
  omega

/-- The initial state built by lines 43-47: `c = b - gr*(b-a)`,
`d = a + gr*(b-a)`, `fc = f(c)`, `fd = f(d)`, `it = 0`; `f` has been
evaluated at `c` and at `d`. -/
def gssInit (f : K → K) (gr a b : K) : GSState K :=
  let c := b - gr * (b - a)
  let d := a + gr * (b - a)
  { a := a, b := b, c := c, d := d, fc := f c, fd := f d,
    it := 0, pts := [c, d] }

/-- Result selection of lines 72-78: `if (fc < fd) == minimize` return
`(c, fc, it)` else `(d, fd, it)`. -/
def gssSelect (minimize : Bool) (s : GSState K) : K × K × Nat :=
  if (decide (s.fc < s.fd)) = minimize then (s.c, s.fc, s.it)
  else (s.d, s.fd, s.it)

/-- The golden ratio constant of line 42: `gr = (sqrt 5 - 1) / 2`. -/
noncomputable def gr : ℝ := (Real.sqrt 5 - 1) / 2

/-- Embedding of `golden_section_search(f, a, b, tol, max_iter, minimize)`
(lines 23-78).  The `raise ValueError` of line 39 is embedded as
`Except.error` with the source's message; a normal return is `Except.ok`
of the triple `(x_opt, f_opt, iterations)`. -/
noncomputable def golden_section_search (f : ℝ → ℝ) (a b tol : ℝ)
    (max_iter : ℕ) (minimize : Bool) : Except String (ℝ × ℝ × ℕ) :=
  if a ≥ b then .error "Require a < b for the search interval"
  else .ok (gssSelect minimize (gsLoop f gr tol minimize max_iter (gssInit f gr a b)))

/-- Variant of `keepLeft` for a fallible objective: in Python `f` may
raise at the call `fc = f(c)` of lines 56/65, in which case the exception
propagates out of `golden_section_search` uncaught. -/
def keepLeftE (f : K → Except String K) (gr : K) (s : GSState K) :
    Except String (GSState K) :=
  let b := s.d
  let d := s.c
  let fd := s.fc
  let c := b - gr * (b - s.a)
  match f c with
  | .error e => .error e
  | .ok fc => .ok ⟨s.a, b, c, d, fc, fd, s.it + 1, c :: s.pts⟩

/-- Variant of `keepRight` for a fallible objective (`fd = f(d)`,
lines 60/69). -/
def keepRightE (f : K → Except String K) (gr : K) (s : GSState K) :
    Except String (GSState K) :=
  let a := s.c
  let c := s.d
  let fc := s.fd
  let d := a + gr * (s.b - a)
  match f d with
  | .error e => .error e
  | .ok fd => .ok ⟨a, s.b, c, d, fc, fd, s.it + 1, d :: s.pts⟩

/-- Loop body (lines 52-70) for a fallible objective. -/
def gsStepE (f : K → Except String K) (gr : K) (minimize : Bool)
    (s : GSState K) : Except String (GSState K) :=
  if minimize then
    if s.fc < s.fd then keepLeftE f gr s else keepRightE f gr s
  else
    if s.fc > s.fd then keepLeftE f gr s else keepRightE f gr s

/-- The while loop (lines 49-70) for a fallible objective: an exception
raised inside the body aborts the whole loop. -/
def gsLoopE (f : K → Except String K) (gr tol : K) (minimize : Bool)
    (maxIter : Nat) (s : GSState K) : Except String (GSState K) :=
  if h : tol < s.b - s.a ∧ s.it < maxIter then
    match h2 : gsStepE f gr minimize s with
    | .error e => .error e
    | .ok s2 => gsLoopE f gr tol minimize maxIter s2
  else .ok s
termination_by maxIter - s.it
decreasing_by
  have hit : s2.it = s.it + 1 := by
    unfold gsStepE keepLeftE keepRightE at h2
    dsimp only at h2
    split at h2 <;> split at h2 <;> split at h2
    all_goals first
      | (simp only [Except.ok.injEq] at h2; subst h2; rfl)
      | simp at h2
  omega

/-- Version of `golden_section_search` for a fallible objective: the faithful
embedding of the Python function when the supplied callable can raise.
The interval check of lines 38-39 precedes every evaluation; exceptions
from `f` at lines 45, 46, 56, 60, 65, 69 propagate uncaught. -/
noncomputable def golden_section_searchE (f : ℝ → Except String ℝ)
    (a b tol : ℝ) (max_iter : ℕ) (minimize : Bool) :
    Except String (ℝ × ℝ × ℕ) :=
  if a ≥ b then .error "Require a < b for the search interval"
  else
    let c := b - gr * (b - a)
    let d := a + gr * (b - a)
    match f c with
    | .error e => .error e
    | .ok fc =>
      match f d with
      | .error e => .error e
      | .ok fd =>
        match gsLoopE f gr tol minimize max_iter
            { a := a, b := b, c := c, d := d, fc := fc, fd := fd,
              it := 0, pts := [c, d] } with
        | .error e => .error e
        | .ok s => .ok (gssSelect minimize s)

/-- Loop invariant relating a state to the original call
`golden_section_search(f, a0, b0, ...)`: the current bracket is nested in
the original one, `a < b`, the interior points and cached values are the
ones lines 43-46 and 54-60/63-69 maintain, and every point at which `f`
has been evaluated lies strictly inside `(a0, b0)`. -/
def GoodState (f : K → K) (gr a0 b0 : K) (s : GSState K) : Prop :=
  a0 ≤ s.a ∧ s.b ≤ b0 ∧ s.a < s.b ∧
  s.c = s.b - gr * (s.b - s.a) ∧ s.d = s.a + gr * (s.b - s.a) ∧
  s.fc = f s.c ∧ s.fd = f s.d ∧
  ∀ x ∈ s.pts, a0 < x ∧ x < b0

/-- The state with `fc` and `fd` negated; relates a run on `f` (minimising) to a run on
`-f` (maximising). -/
def negState (s : GSState K) : GSState K :=
  { s with fc := -s.fc, fd := -s.fd }

/-- Value of a fallible objective where it succeeds, `0` where it fails;
used to compare a fallible run with the total run it simulates on the
points the search actually evaluates. -/
def orZero (f : K → Except String K) (x : K) : K :=
  match f x with
  | .ok v => v
  | .error _ => 0

theorem gsStep_it (f : K → K) (gr : K) (minimize : Bool) (s : GSState K) :
    (gsStep f gr minimize s).it = s.it + 1 := by
  unfold gsStep keepLeft keepRight
  split <;> split <;> rfl

theorem gsStep_cases (f : K → K) (gr : K) (minimize : Bool) (s : GSState K) :
    gsStep f gr minimize s = keepLeft f gr s ∨
    gsStep f gr minimize s = keepRight f gr s := by
  unfold gsStep
  split <;> split <;> simp

theorem gsLoop_eq (f : K → K) (gr tol : K) (minimize : Bool) (maxIter : Nat)
    (s : GSState K) :
    gsLoop f gr tol minimize maxIter s =
      if tol < s.b - s.a ∧ s.it < maxIter then
        gsLoop f gr tol minimize maxIter (gsStep f gr minimize s)
      else s := by
  rw [gsLoop, dite_eq_ite]

theorem gsLoop_invariant (f : K → K) (gr tol : K) (minimize : Bool)
    (maxIter : Nat) (P : GSState K → Prop)
    (hstep : ∀ s, tol < s.b - s.a → s.it < maxIter → P s →
      P (gsStep f gr minimize s)) :
    ∀ s, P s → P (gsLoop f gr tol minimize maxIter s) := by
  have key : ∀ n s, maxIter - s.it ≤ n → P s →
      P (gsLoop f gr tol minimize maxIter s) := by
    intro n
    induction n with
    | zero =>
      intro s hn hP
      rw [gsLoop_eq]
      split
      · next hc => exact absurd hc.2 (by omega)
      · exact hP
    | succ n ih =>
      intro s hn hP
      rw [gsLoop_eq]
      split
      · next hc =>
        exact ih (gsStep f gr minimize s)
          (by have := gsStep_it f gr minimize s; omega)
          (hstep s hc.1 hc.2 hP)
      · exact hP
  exact fun s hP => key maxIter s (by omega) hP

theorem gsLoop_exit (f : K → K) (gr tol : K) (minimize : Bool)
    (maxIter : Nat) :
    ∀ s, ¬ (tol < (gsLoop f gr tol minimize maxIter s).b -
              (gsLoop f gr tol minimize maxIter s).a ∧
            (gsLoop f gr tol minimize maxIter s).it < maxIter) := by
  have key : ∀ n s, maxIter - s.it ≤ n →
      ¬ (tol < (gsLoop f gr tol minimize maxIter s).b -
            (gsLoop f gr tol minimize maxIter s).a ∧
          (gsLoop f gr tol minimize maxIter s).it < maxIter) := by
    intro n
    induction n with
    | zero =>
      intro s hn
      rw [gsLoop_eq]
      split
      · next hc => exact absurd hc.2 (by omega)
      · next hc => exact hc
    | succ n ih =>
      intro s hn
      rw [gsLoop_eq]
      split
      · next hc =>
        exact ih (gsStep f gr minimize s)
          (by have := gsStep_it f gr minimize s; omega)
      · next hc => exact hc
  exact fun s => key maxIter s (by omega)

theorem gr_pos : 0 < gr := by
  have h2 : (2 : ℝ) < Real.sqrt 5 :=
    (Real.lt_sqrt (by norm_num)).mpr (by norm_num)
  unfold gr
  linarith

theorem gr_half : 1 / 2 < gr := by
  have h2 : (2 : ℝ) < Real.sqrt 5 :=
    (Real.lt_sqrt (by norm_num)).mpr (by norm_num)
  unfold gr
  linarith

theorem gr_lt_one : gr < 1 := by
  have h3 : Real.sqrt 5 < 3 :=
    (Real.sqrt_lt' (by norm_num)).mpr (by norm_num)
  unfold gr
  linarith

theorem gr_sq : gr * gr = 1 - gr := by
  have h5 : Real.sqrt 5 ^ 2 = 5 := Real.sq_sqrt (by norm_num)
  unfold gr
  linear_combination h5 / 4

theorem gsStep_ptsLen (f : K → K) (gr : K) (minimize : Bool) (s : GSState K) :
    (gsStep f gr minimize s).pts.length = s.pts.length + 1 := by
  unfold gsStep keepLeft keepRight
  split <;> split <;> rfl

theorem keepLeft_good {f : K → K} {gr a0 b0 : K} (h1 : 1 / 2 < gr)
    (h2 : gr < 1) (h3 : gr * gr = 1 - gr) {s : GSState K}
    (hs : GoodState f gr a0 b0 s) : GoodState f gr a0 b0 (keepLeft f gr s) := by
  obtain ⟨ha0, hb0, hab, hc, hd, hfc, hfd, hpts⟩ := hs
  have h0 : (0 : K) < gr := lt_trans (by norm_num) h1
  have hL : 0 < s.b - s.a := sub_pos.mpr hab
  have hgL : 0 < gr * (s.b - s.a) := mul_pos h0 hL
  have h2L : 0 < (1 - gr) * (gr * (s.b - s.a)) :=
    mul_pos (sub_pos.mpr h2) hgL
  unfold keepLeft GoodState
  dsimp only
  refine ⟨ha0, ?_, ?_, rfl, ?_, rfl, hfc, ?_⟩
  · nlinarith [mul_lt_mul_of_pos_right h2 hL]
  · nlinarith
  · rw [hc, hd]
    linear_combination (s.a - s.b) * h3
  · intro x hx
    rcases List.mem_cons.mp hx with rfl | hx
    · constructor
      · rw [hd]
        nlinarith
      · rw [hd]
        nlinarith [mul_lt_mul_of_pos_right h2 hL]
    · exact hpts x hx

theorem keepRight_good {f : K → K} {gr a0 b0 : K} (h1 : 1 / 2 < gr)
    (h2 : gr < 1) (h3 : gr * gr = 1 - gr) {s : GSState K}
    (hs : GoodState f gr a0 b0 s) : GoodState f gr a0 b0 (keepRight f gr s) := by
  obtain ⟨ha0, hb0, hab, hc, hd, hfc, hfd, hpts⟩ := hs
  have h0 : (0 : K) < gr := lt_trans (by norm_num) h1
  have hL : 0 < s.b - s.a := sub_pos.mpr hab
  have hgL : 0 < gr * (s.b - s.a) := mul_pos h0 hL
  have h2L : 0 < (1 - gr) * (gr * (s.b - s.a)) :=
    mul_pos (sub_pos.mpr h2) hgL
  unfold keepRight GoodState
  dsimp only
  refine ⟨?_, hb0, ?_, ?_, rfl, hfd, rfl, ?_⟩
  · rw [hc]
    nlinarith [mul_lt_mul_of_pos_right h2 hL]
  · rw [hc]
    nlinarith
  · rw [hc, hd]
    linear_combination (s.b - s.a) * h3
  · intro x hx
    rcases List.mem_cons.mp hx with rfl | hx
    · constructor
      · rw [hc]
        nlinarith [mul_lt_mul_of_pos_right h2 hL]
      · rw [hc]
        nlinarith
    · exact hpts x hx

theorem gsStep_good {f : K → K} {gr a0 b0 : K} (h1 : 1 / 2 < gr)
    (h2 : gr < 1) (h3 : gr * gr = 1 - gr) (minimize : Bool) {s : GSState K}
    (hs : GoodState f gr a0 b0 s) :
    GoodState f gr a0 b0 (gsStep f gr minimize s) := by
  rcases gsStep_cases f gr minimize s with h | h <;> rw [h]
  · exact keepLeft_good h1 h2 h3 hs
  · exact keepRight_good h1 h2 h3 hs

theorem gssInit_good {f : K → K} {gr : K} (h1 : 1 / 2 < gr) (h2 : gr < 1)
    {a b : K} (hab : a < b) : GoodState f gr a b (gssInit f gr a b) := by
  have h0 : (0 : K) < gr := lt_trans (by norm_num) h1
  have hL : 0 < b - a := sub_pos.mpr hab
  have hgL : 0 < gr * (b - a) := mul_pos h0 hL
  have h1L : 0 < (1 - gr) * (b - a) := mul_pos (sub_pos.mpr h2) hL
  unfold gssInit GoodState
  dsimp only
  refine ⟨le_refl a, le_refl b, hab, rfl, rfl, rfl, rfl, ?_⟩
  intro x hx
  rcases List.mem_cons.mp hx with rfl | hx
  · constructor <;> nlinarith
  · rcases List.mem_cons.mp hx with rfl | hx
    · constructor <;> nlinarith
    · exact absurd hx (List.not_mem_nil x)

theorem keepLeft_len {f : K → K} {gr : K} {s : GSState K}
    (hd : s.d = s.a + gr * (s.b - s.a)) :
    (keepLeft f gr s).b - (keepLeft f gr s).a = gr * (s.b - s.a) := by
  unfold keepLeft
  dsimp only
  rw [hd]
  ring

theorem keepRight_len {f : K → K} {gr : K} {s : GSState K}
    (hc : s.c = s.b - gr * (s.b - s.a)) :
    (keepRight f gr s).b - (keepRight f gr s).a = gr * (s.b - s.a) := by
  unfold keepRight
  dsimp only
  rw [hc]
  ring

theorem gsStep_len {f : K → K} {gr a0 b0 : K} (minimize : Bool)
    {s : GSState K} (hs : GoodState f gr a0 b0 s) :
    (gsStep f gr minimize s).b - (gsStep f gr minimize s).a =
      gr * (s.b - s.a) := by
  rcases gsStep_cases f gr minimize s with h | h <;> rw [h]
  · exact keepLeft_len hs.2.2.2.2.1
  · exact keepRight_len hs.2.2.2.1

theorem gsStepE_it {f : K → Except String K} {gr : K} {minimize : Bool}
    {s s2 : GSState K} (h2 : gsStepE f gr minimize s = .ok s2) :
    s2.it = s.it + 1 := by
  unfold gsStepE keepLeftE keepRightE at h2
  dsimp only at h2
  split at h2 <;> split at h2 <;> split at h2
  all_goals first
    | (simp only [Except.ok.injEq] at h2; subst h2; rfl)
    | simp at h2

theorem gsStepE_ok {f : K → Except String K} {g : K → K}
    (hg : ∀ x, f x = .ok (g x)) (gr : K) (minimize : Bool) (s : GSState K) :
    gsStepE f gr minimize s = .ok (gsStep g gr minimize s) := by
  unfold gsStepE gsStep keepLeftE keepRightE keepLeft keepRight
  split <;> split <;> dsimp only <;> rw [hg]

theorem gsStepE_error {f : K → Except String K} {gr : K} {minimize : Bool}
    {s : GSState K} {e : String} (h : gsStepE f gr minimize s = .error e) :
    ∃ x, f x = .error e := by
  unfold gsStepE keepLeftE keepRightE at h
  dsimp only at h
  split at h <;> split at h <;> split at h
  all_goals first
    | (injection h; done)
    | (rename_i e2 heq; injection h with h2; subst h2; exact ⟨_, heq⟩)

theorem gsLoopE_ok {f : K → Except String K} {g : K → K}
    (hg : ∀ x, f x = .ok (g x)) (gr tol : K) (minimize : Bool)
    (maxIter : Nat) :
    ∀ s, gsLoopE f gr tol minimize maxIter s =
      .ok (gsLoop g gr tol minimize maxIter s) := by
  have key : ∀ n s, maxIter - s.it ≤ n →
      gsLoopE f gr tol minimize maxIter s =
        .ok (gsLoop g gr tol minimize maxIter s) := by
    intro n
    induction n with
    | zero =>
      intro s hn
      rw [gsLoopE, gsLoop_eq]
      split
      · next hc => exact absurd hc.2 (by omega)
      · rfl
    | succ n ih =>
      intro s hn
      rw [gsLoopE, gsLoop_eq]
      split
      · next hc =>
        split
        · next e heq =>
          rw [gsStepE_ok hg] at heq
          injection heq
        · next s2 heq =>
          rw [gsStepE_ok hg] at heq
          injection heq with heq2
          rw [← heq2]
          exact ih (gsStep g gr minimize s)
            (by have := gsStep_it g gr minimize s; omega)
      · rfl
  exact fun s => key maxIter s (by omega)

theorem orZero_ok {f : K → Except String K} {x v : K} (h : f x = .ok v) :
    orZero f x = v := by
  unfold orZero
  rw [h]

theorem gsStepE_ok_on {f : K → Except String K} {g : K → K} {gr a0 b0 : K}
    (h1 : 1 / 2 < gr) (h2 : gr < 1) (h3 : gr * gr = 1 - gr)
    (hg : ∀ x, a0 < x → x < b0 → f x = .ok (g x)) (minimize : Bool)
    {s : GSState K} (hs : GoodState g gr a0 b0 s) :
    gsStepE f gr minimize s = .ok (gsStep g gr minimize s) := by
  have hl := (keepLeft_good (f := g) h1 h2 h3 hs).2.2.2.2.2.2.2
    (s.d - gr * (s.d - s.a)) (List.mem_cons_self _ _)
  have hr := (keepRight_good (f := g) h1 h2 h3 hs).2.2.2.2.2.2.2
    (s.c + gr * (s.b - s.c)) (List.mem_cons_self _ _)
  unfold gsStepE gsStep keepLeftE keepRightE keepLeft keepRight
  split <;> split <;> dsimp only
  · rw [hg _ hl.1 hl.2]
  · rw [hg _ hr.1 hr.2]
  · rw [hg _ hl.1 hl.2]
  · rw [hg _ hr.1 hr.2]

theorem gsLoopE_ok_on {f : K → Except String K} {g : K → K} {gr a0 b0 : K}
    (h1 : 1 / 2 < gr) (h2 : gr < 1) (h3 : gr * gr = 1 - gr)
    (hg : ∀ x, a0 < x → x < b0 → f x = .ok (g x)) (tol : K)
    (minimize : Bool) (maxIter : Nat) :
    ∀ s, GoodState g gr a0 b0 s →
      gsLoopE f gr tol minimize maxIter s =
        .ok (gsLoop g gr tol minimize maxIter s) := by
  have key : ∀ n s, maxIter - s.it ≤ n → GoodState g gr a0 b0 s →
      gsLoopE f gr tol minimize maxIter s =
        .ok (gsLoop g gr tol minimize maxIter s) := by
    intro n
    induction n with
    | zero =>
      intro s hn hs
      rw [gsLoopE, gsLoop_eq]
      split
      · next hc => exact absurd hc.2 (by omega)
      · rfl
    | succ n ih =>
      intro s hn hs
      rw [gsLoopE, gsLoop_eq]
      split
      · next hc =>
        split
        · next e heq =>
          rw [gsStepE_ok_on h1 h2 h3 hg minimize hs] at heq
          injection heq
        · next s2 heq =>
          rw [gsStepE_ok_on h1 h2 h3 hg minimize hs] at heq
          injection heq with heq2
          rw [← heq2]
          exact ih (gsStep g gr minimize s)
            (by have := gsStep_it g gr minimize s; omega)
            (gsStep_good h1 h2 h3 minimize hs)
      · rfl
  exact fun s hs => key maxIter s (by omega) hs

theorem gsLoopE_error {f : K → Except String K} {gr tol : K}
    {minimize : Bool} {maxIter : Nat} {e : String} :
    ∀ s, gsLoopE f gr tol minimize maxIter s = .error e →
      ∃ x, f x = .error e := by
  have key : ∀ n s, maxIter - s.it ≤ n →
      gsLoopE f gr tol minimize maxIter s = .error e →
      ∃ x, f x = .error e := by
    intro n
    induction n with
    | zero =>
      intro s hn h
      rw [gsLoopE] at h
      split at h
      · next hc => exact absurd hc.2 (by omega)
      · injection h
    | succ n ih =>
      intro s hn h
      rw [gsLoopE] at h
      split at h
      · next hc =>
        split at h
        · next e2 heq =>
          injection h with h2
          subst h2
          exact gsStepE_error heq
        · next s2 heq =>
          exact ih s2 (by have := gsStepE_it heq; omega) h
      · injection h
  exact fun s => key maxIter s (by omega)

theorem gssInit_neg (f : K → K) (gr a b : K) :
    gssInit (fun t => -(f t)) gr a b = negState (gssInit f gr a b) := rfl

theorem keepLeft_neg (f : K → K) (gr : K) (s : GSState K) :
    keepLeft (fun t => -(f t)) gr (negState s) = negState (keepLeft f gr s) := rfl

theorem keepRight_neg (f : K → K) (gr : K) (s : GSState K) :
    keepRight (fun t => -(f t)) gr (negState s) = negState (keepRight f gr s) := rfl

theorem gsStep_neg (f : K → K) (gr : K) (s : GSState K) :
    gsStep (fun t => -(f t)) gr false (negState s) =
      negState (gsStep f gr true s) := by
  by_cases h : s.fc < s.fd
  · have h2 : (negState s).fc > (negState s).fd := by
      show -s.fd < -s.fc
      exact neg_lt_neg_iff.mpr h
    simp only [gsStep, if_pos h, if_pos h2, Bool.false_eq_true, if_false,
      if_true, keepLeft_neg]
  · have h2 : ¬ (negState s).fc > (negState s).fd := by
      show ¬ -s.fd < -s.fc
      exact fun hl => h (neg_lt_neg_iff.mp hl)
    simp only [gsStep, if_neg h, if_neg h2, Bool.false_eq_true, if_false,
      if_true, keepRight_neg]

theorem negState_a (s : GSState K) : (negState s).a = s.a := rfl

theorem negState_b (s : GSState K) : (negState s).b = s.b := rfl

theorem negState_c (s : GSState K) : (negState s).c = s.c := rfl

theorem negState_d (s : GSState K) : (negState s).d = s.d := rfl

theorem negState_it (s : GSState K) : (negState s).it = s.it := rfl

theorem negState_fc (s : GSState K) : (negState s).fc = -s.fc := rfl

theorem negState_fd (s : GSState K) : (negState s).fd = -s.fd := rfl

theorem gsLoop_neg (f : K → K) (gr tol : K) (maxIter : Nat) :
    ∀ s, gsLoop (fun t => -(f t)) gr tol false maxIter (negState s) =
      negState (gsLoop f gr tol true maxIter s) := by
  have key : ∀ n s, maxIter - s.it ≤ n →
      gsLoop (fun t => -(f t)) gr tol false maxIter (negState s) =
        negState (gsLoop f gr tol true maxIter s) := by
    intro n
    induction n with
    | zero =>
      intro s hn
      rw [gsLoop_eq, gsLoop_eq f gr tol true maxIter s]
      simp only [negState_a, negState_b, negState_it]
      split
      · next hc => exact absurd hc.2 (by omega)
      · rfl
    | succ n ih =>
      intro s hn
      rw [gsLoop_eq, gsLoop_eq f gr tol true maxIter s]
      simp only [negState_a, negState_b, negState_it]
      split
      · next hc =>
        rw [gsStep_neg]
        exact ih (gsStep f gr true s)
          (by have := gsStep_it f gr true s; omega)
      · rfl
  exact fun s => key maxIter s (by omega)

/-- C1: for every function `f`, every interval with `a < b`, every
`tol > 0` and every `max_iter`, `golden_section_search` returns normally
with the loop's final iteration count, that count is at most `max_iter`
(and trivially at least `0`), and whenever it is strictly below `max_iter`
the final bracket length `b - a` is at most `tol`. -/
theorem golden_section_search_iteration_bound (f : ℝ → ℝ) (a b tol : ℝ)
    (max_iter : ℕ) (minimize : Bool) (hab : a < b) (htol : 0 < tol) :
    ∃ x y : ℝ,
      golden_section_search f a b tol max_iter minimize =
        .ok (x, y, (gsLoop f gr tol minimize max_iter (gssInit f gr a b)).it) ∧
      (gsLoop f gr tol minimize max_iter (gssInit f gr a b)).it ≤ max_iter ∧
      ((gsLoop f gr tol minimize max_iter (gssInit f gr a b)).it < max_iter →
        (gsLoop f gr tol minimize max_iter (gssInit f gr a b)).b -
          (gsLoop f gr tol minimize max_iter (gssInit f gr a b)).a ≤ tol) := by
  have hne : ¬ a ≥ b := not_le.mpr hab
  have hit : (gsLoop f gr tol minimize max_iter (gssInit f gr a b)).it ≤
      max_iter := by
    refine gsLoop_invariant f gr tol minimize max_iter
      (fun s => s.it ≤ max_iter) ?_ _ ?_
    · intro s hcond hlt hP
      rw [gsStep_it]
      omega
    · exact Nat.zero_le _
  have hexit := gsLoop_exit f gr tol minimize max_iter (gssInit f gr a b)
  have hres : ∃ x y : ℝ,
      golden_section_search f a b tol max_iter minimize =
        .ok (x, y, (gsLoop f gr tol minimize max_iter (gssInit f gr a b)).it) := by
    unfold golden_section_search
    rw [if_neg hne]
    unfold gssSelect
    split
    · exact ⟨_, _, rfl⟩
    · exact ⟨_, _, rfl⟩
  obtain ⟨x, y, hxy⟩ := hres
  refine ⟨x, y, hxy, hit, fun hlt => ?_⟩
  by_contra hgt
  push_neg at hgt
  exact hexit ⟨hgt, hlt⟩

/-- Witness for C1 at `f = id`, `[a, b] = [0, 1]`, `tol = 1/2`,
`max_iter = 5`, minimising. -/
theorem golden_section_search_iteration_bound_witness :
    (0 : ℝ) < 1 ∧ (0 : ℝ) < 1 / 2 ∧
    ∃ x y : ℝ,
      golden_section_search (fun t => t) 0 1 (1 / 2) 5 true =
        .ok (x, y, (gsLoop (fun t => t) gr (1 / 2) true 5
          (gssInit (fun t => t) gr 0 1)).it) ∧
      (gsLoop (fun t => t) gr (1 / 2) true 5
        (gssInit (fun t => t) gr 0 1)).it ≤ 5 ∧
      ((gsLoop (fun t => t) gr (1 / 2) true 5
          (gssInit (fun t => t) gr 0 1)).it < 5 →
        (gsLoop (fun t => t) gr (1 / 2) true 5
            (gssInit (fun t => t) gr 0 1)).b -
          (gsLoop (fun t => t) gr (1 / 2) true 5
            (gssInit (fun t => t) gr 0 1)).a ≤ 1 / 2) :=
  ⟨by norm_num, by norm_num,
    golden_section_search_iteration_bound (fun t => t) 0 1 (1 / 2) 5 true
      (by norm_num) (by norm_num)⟩

/-- C2: for every `f` and every `a ≥ b`, the search raises
`InvalidIntervalError` (the `ValueError` of line 39) and performs zero
evaluations of `f`: the result is the same error for every total `f`, and
also for every fallible `g` — in particular for one that fails on every
input — so `f` is never consulted. -/
theorem golden_section_search_invalid_interval (f : ℝ → ℝ) (a b tol : ℝ)
    (max_iter : ℕ) (minimize : Bool) (hab : b ≤ a) :
    golden_section_search f a b tol max_iter minimize =
      .error "Require a < b for the search interval" ∧
    ∀ g : ℝ → Except String ℝ,
      golden_section_searchE g a b tol max_iter minimize =
        .error "Require a < b for the search interval" := by
  constructor
  · unfold golden_section_search
    rw [if_pos hab]
  · intro g
    unfold golden_section_searchE
    rw [if_pos hab]

/-- Witness for C2 at the spec's own example `a = 5, b = -5`. -/
theorem golden_section_search_invalid_interval_witness :
    golden_section_search (fun t => t) 5 (-5) (1 / 100000) 1000 true =
      .error "Require a < b for the search interval" ∧
    golden_section_searchE (fun _ => .error "boom") 5 (-5) (1 / 100000)
        1000 true =
      .error "Require a < b for the search interval" := by
  have h := golden_section_search_invalid_interval (fun t => t) 5 (-5)
    (1 / 100000) 1000 true (by norm_num)
  exact ⟨h.1, h.2 (fun _ => .error "boom")⟩

/-- C3: in every run with `a < b`, the number of evaluations of `f`
(length of the instrumentation trace `pts`) equals the number of executed
iterations plus the two initial evaluations. -/
theorem golden_section_search_eval_count (f : ℝ → ℝ) (a b tol : ℝ)
    (max_iter : ℕ) (minimize : Bool) (hab : a < b) :
    (gsLoop f gr tol minimize max_iter (gssInit f gr a b)).pts.length =
      (gsLoop f gr tol minimize max_iter (gssInit f gr a b)).it + 2 := by
  refine gsLoop_invariant f gr tol minimize max_iter
    (fun s => s.pts.length = s.it + 2) ?_ _ ?_
  · intro s h1 h2 hP
    rw [gsStep_ptsLen, gsStep_it, hP]
  · rfl

/-- Witness for C3 at `f = id`, `[0, 1]`, `tol = 1/2`, `max_iter = 5`. -/
theorem golden_section_search_eval_count_witness :
    (0 : ℝ) < 1 ∧
    (gsLoop (fun t : ℝ => t) gr (1 / 2) true 5
        (gssInit (fun t : ℝ => t) gr 0 1)).pts.length =
      (gsLoop (fun t : ℝ => t) gr (1 / 2) true 5
        (gssInit (fun t : ℝ => t) gr 0 1)).it + 2 :=
  ⟨by norm_num,
    golden_section_search_eval_count (fun t => t) 0 1 (1 / 2) 5 true
      (by norm_num)⟩

/-- C4: each executed iteration multiplies the bracket length by exactly
`gr` (whichever branch runs, in either direction mode), and across the
whole call the final bracket length never exceeds the initial `b - a`. -/
theorem golden_section_search_contraction (f : ℝ → ℝ) (a b tol : ℝ)
    (max_iter : ℕ) (minimize : Bool) (hab : a < b) :
    (∀ s : GSState ℝ, GoodState f gr a b s →
      (gsStep f gr minimize s).b - (gsStep f gr minimize s).a =
        gr * (s.b - s.a)) ∧
    (gsLoop f gr tol minimize max_iter (gssInit f gr a b)).b -
        (gsLoop f gr tol minimize max_iter (gssInit f gr a b)).a ≤
      b - a := by
  constructor
  · intro s hs
    exact gsStep_len minimize hs
  · have key := gsLoop_invariant f gr tol minimize max_iter
      (fun s => GoodState f gr a b s ∧ s.b - s.a ≤ b - a)
      (fun s h1 h2 hP => by
        refine ⟨gsStep_good gr_half gr_lt_one gr_sq minimize hP.1, ?_⟩
        rw [gsStep_len minimize hP.1]
        have hL : 0 < s.b - s.a := sub_pos.mpr hP.1.2.2.1
        nlinarith [gr_pos, gr_lt_one, hP.2])
      (gssInit f gr a b)
      ⟨gssInit_good gr_half gr_lt_one hab, le_refl _⟩
    exact key.2

/-- Witness for C4 at `f = id`, `[0, 1]`, `tol = 1/2`, `max_iter = 5`. -/
theorem golden_section_search_contraction_witness :
    (0 : ℝ) < 1 ∧
    ((∀ s : GSState ℝ, GoodState (fun t : ℝ => t) gr 0 1 s →
      (gsStep (fun t : ℝ => t) gr true s).b -
          (gsStep (fun t : ℝ => t) gr true s).a = gr * (s.b - s.a)) ∧
    (gsLoop (fun t : ℝ => t) gr (1 / 2) true 5
        (gssInit (fun t : ℝ => t) gr 0 1)).b -
        (gsLoop (fun t : ℝ => t) gr (1 / 2) true 5
          (gssInit (fun t : ℝ => t) gr 0 1)).a ≤ 1 - 0) :=
  ⟨by norm_num,
    golden_section_search_contraction (fun t => t) 0 1 (1 / 2) 5 true
      (by norm_num)⟩

/-- C7: the bracket invariant holds throughout: it holds of the initial
state, is preserved by every iteration of either branch in either
direction mode, implies `a < b` and `a < c < d < b`, and holds of the
loop's final state. -/
theorem golden_section_search_bracket (f : ℝ → ℝ) (a b tol : ℝ)
    (max_iter : ℕ) (minimize : Bool) (hab : a < b) :
    GoodState f gr a b (gssInit f gr a b) ∧
    (∀ s : GSState ℝ, GoodState f gr a b s →
      GoodState f gr a b (gsStep f gr minimize s)) ∧
    (∀ s : GSState ℝ, GoodState f gr a b s →
      s.a < s.b ∧ s.a < s.c ∧ s.c < s.d ∧ s.d < s.b) ∧
    GoodState f gr a b
      (gsLoop f gr tol minimize max_iter (gssInit f gr a b)) := by
  have hinit : GoodState f gr a b (gssInit f gr a b) :=
    gssInit_good gr_half gr_lt_one hab
  have hstep : ∀ s : GSState ℝ, GoodState f gr a b s →
      GoodState f gr a b (gsStep f gr minimize s) :=
    fun s hs => gsStep_good gr_half gr_lt_one gr_sq minimize hs
  refine ⟨hinit, hstep, ?_, ?_⟩
  · intro s hs
    obtain ⟨ha0, hb0, habs, hc, hd, -, -, -⟩ := hs
    have hL : 0 < s.b - s.a := sub_pos.mpr habs
    have h0 := gr_pos
    have h1 := gr_half
    have h2 := gr_lt_one
    refine ⟨habs, ?_, ?_, ?_⟩
    · rw [hc]
      nlinarith
    · rw [hc, hd]
      nlinarith
    · rw [hd]
      nlinarith
  · exact gsLoop_invariant f gr tol minimize max_iter
      (fun s => GoodState f gr a b s) (fun s _ _ hs => hstep s hs) _ hinit

/-- Witness for C7 at `f = id`, `[0, 1]`, `tol = 1/2`, `max_iter = 5`. -/
theorem golden_section_search_bracket_witness :
    (0 : ℝ) < 1 ∧
    (GoodState (fun t : ℝ => t) gr 0 1 (gssInit (fun t : ℝ => t) gr 0 1) ∧
    (∀ s : GSState ℝ, GoodState (fun t : ℝ => t) gr 0 1 s →
      GoodState (fun t : ℝ => t) gr 0 1 (gsStep (fun t : ℝ => t) gr true s)) ∧
    (∀ s : GSState ℝ, GoodState (fun t : ℝ => t) gr 0 1 s →
      s.a < s.b ∧ s.a < s.c ∧ s.c < s.d ∧ s.d < s.b) ∧
    GoodState (fun t : ℝ => t) gr 0 1
      (gsLoop (fun t : ℝ => t) gr (1 / 2) true 5
        (gssInit (fun t : ℝ => t) gr 0 1))) :=
  ⟨by norm_num,
    golden_section_search_bracket (fun t => t) 0 1 (1 / 2) 5 true
      (by norm_num)⟩

/-- C8: with `max_iter = 0` and `a < b` the loop is never entered: the
final state is the initial one, `f` has been evaluated exactly twice, the
returned iteration count is `0`, and the result is one of the two initial
interior points carrying its own function value — the better one: the
smaller value when minimising, the larger when maximising. -/
theorem golden_section_search_max_iter_zero (f : ℝ → ℝ) (a b tol : ℝ)
    (minimize : Bool) (hab : a < b) :
    gsLoop f gr tol minimize 0 (gssInit f gr a b) = gssInit f gr a b ∧
    (gssInit f gr a b).pts.length = 2 ∧
    ∃ x y : ℝ,
      golden_section_search f a b tol 0 minimize = .ok (x, y, 0) ∧
      (x = (gssInit f gr a b).c ∨ x = (gssInit f gr a b).d) ∧
      y = f x ∧
      (minimize = true →
        y = min (f (gssInit f gr a b).c) (f (gssInit f gr a b).d)) ∧
      (minimize = false →
        y = max (f (gssInit f gr a b).c) (f (gssInit f gr a b).d)) := by
  have hloop : gsLoop f gr tol minimize 0 (gssInit f gr a b) =
      gssInit f gr a b := by
    rw [gsLoop_eq, if_neg]
    rintro ⟨-, hlt⟩
    have h0 : (gssInit f gr a b).it = 0 := rfl
    omega
  refine ⟨hloop, rfl, ?_⟩
  have hne : ¬ a ≥ b := not_le.mpr hab
  have hfc : (gssInit f gr a b).fc = f (gssInit f gr a b).c := rfl
  have hfd : (gssInit f gr a b).fd = f (gssInit f gr a b).d := rfl
  have hit : (gssInit f gr a b).it = 0 := rfl
  unfold golden_section_search
  rw [if_neg hne, hloop]
  unfold gssSelect
  cases minimize with
  | true =>
    by_cases h : (gssInit f gr a b).fc < (gssInit f gr a b).fd
    · rw [if_pos (decide_eq_true h)]
      rw [hfc, hfd] at h
      exact ⟨(gssInit f gr a b).c, (gssInit f gr a b).fc, by rw [hit],
        Or.inl rfl, hfc, fun _ => by rw [hfc]; exact (min_eq_left h.le).symm,
        fun hcontra => absurd hcontra (by simp)⟩
    · rw [if_neg (by rw [decide_eq_false h]; simp)]
      rw [hfc, hfd] at h
      exact ⟨(gssInit f gr a b).d, (gssInit f gr a b).fd, by rw [hit],
        Or.inr rfl, hfd,
        fun _ => by rw [hfd]; exact (min_eq_right (not_lt.mp h)).symm,
        fun hcontra => absurd hcontra (by simp)⟩
  | false =>
    by_cases h : (gssInit f gr a b).fc < (gssInit f gr a b).fd
    · rw [if_neg (by rw [decide_eq_true h]; simp)]
      rw [hfc, hfd] at h
      exact ⟨(gssInit f gr a b).d, (gssInit f gr a b).fd, by rw [hit],
        Or.inr rfl, hfd,
        fun hcontra => absurd hcontra (by simp),
        fun _ => by rw [hfd]; exact (max_eq_right h.le).symm⟩
    · rw [if_pos (decide_eq_false h)]
      rw [hfc, hfd] at h
      exact ⟨(gssInit f gr a b).c, (gssInit f gr a b).fc, by rw [hit],
        Or.inl rfl, hfc,
        fun hcontra => absurd hcontra (by simp),
        fun _ => by rw [hfc]; exact (max_eq_left (not_lt.mp h)).symm⟩

/-- Witness for C8 at `f = id`, `[0, 1]`, `tol = 1/2`, maximising. -/
theorem golden_section_search_max_iter_zero_witness :
    (0 : ℝ) < 1 ∧
    (gsLoop (fun t : ℝ => t) gr (1 / 2) false 0
        (gssInit (fun t : ℝ => t) gr 0 1) =
      gssInit (fun t : ℝ => t) gr 0 1 ∧
    (gssInit (fun t : ℝ => t) gr 0 1).pts.length = 2 ∧
    ∃ x y : ℝ,
      golden_section_search (fun t : ℝ => t) 0 1 (1 / 2) 0 false =
        .ok (x, y, 0) ∧
      (x = (gssInit (fun t : ℝ => t) gr 0 1).c ∨
        x = (gssInit (fun t : ℝ => t) gr 0 1).d) ∧
      y = x ∧
      (false = true →
        y = min (gssInit (fun t : ℝ => t) gr 0 1).c
          (gssInit (fun t : ℝ => t) gr 0 1).d) ∧
      (false = false →
        y = max (gssInit (fun t : ℝ => t) gr 0 1).c
          (gssInit (fun t : ℝ => t) gr 0 1).d)) :=
  ⟨by norm_num,
    golden_section_search_max_iter_zero (fun t => t) 0 1 (1 / 2) false
      (by norm_num)⟩

/-- C10: every point recorded in the evaluation trace lies strictly inside
the caller's original interval `(a, b)`, and the returned `x_opt` does as
well. -/
theorem golden_section_search_stays_inside (f : ℝ → ℝ) (a b tol : ℝ)
    (max_iter : ℕ) (minimize : Bool) (hab : a < b) :
    (∀ x ∈ (gsLoop f gr tol minimize max_iter (gssInit f gr a b)).pts,
      a < x ∧ x < b) ∧
    ∀ x y : ℝ, ∀ n : ℕ,
      golden_section_search f a b tol max_iter minimize = .ok (x, y, n) →
      a < x ∧ x < b := by
  have hgood : GoodState f gr a b
      (gsLoop f gr tol minimize max_iter (gssInit f gr a b)) :=
    gsLoop_invariant f gr tol minimize max_iter
      (fun s => GoodState f gr a b s)
      (fun s _ _ hs => gsStep_good gr_half gr_lt_one gr_sq minimize hs) _
      (gssInit_good gr_half gr_lt_one hab)
  obtain ⟨ha0, hb0, habs, hc, hd, -, -, hpts⟩ := hgood
  refine ⟨hpts, ?_⟩
  intro x y n h
  unfold golden_section_search at h
  rw [if_neg (not_le.mpr hab)] at h
  unfold gssSelect at h
  have hL : 0 < (gsLoop f gr tol minimize max_iter (gssInit f gr a b)).b -
      (gsLoop f gr tol minimize max_iter (gssInit f gr a b)).a :=
    sub_pos.mpr habs
  have hgl : 0 < gr * ((gsLoop f gr tol minimize max_iter
      (gssInit f gr a b)).b -
      (gsLoop f gr tol minimize max_iter (gssInit f gr a b)).a) :=
    mul_pos gr_pos hL
  have hgl2 : 0 < (1 - gr) * ((gsLoop f gr tol minimize max_iter
      (gssInit f gr a b)).b -
      (gsLoop f gr tol minimize max_iter (gssInit f gr a b)).a) :=
    mul_pos (sub_pos.mpr gr_lt_one) hL
  have hac : (gsLoop f gr tol minimize max_iter (gssInit f gr a b)).a <
      (gsLoop f gr tol minimize max_iter (gssInit f gr a b)).c := by
    rw [hc]; nlinarith
  have hcb : (gsLoop f gr tol minimize max_iter (gssInit f gr a b)).c <
      (gsLoop f gr tol minimize max_iter (gssInit f gr a b)).b := by
    rw [hc]; nlinarith
  have had : (gsLoop f gr tol minimize max_iter (gssInit f gr a b)).a <
      (gsLoop f gr tol minimize max_iter (gssInit f gr a b)).d := by
    rw [hd]; nlinarith
  have hdb : (gsLoop f gr tol minimize max_iter (gssInit f gr a b)).d <
      (gsLoop f gr tol minimize max_iter (gssInit f gr a b)).b := by
    rw [hd]; nlinarith
  split at h
  · injection h with h2
    simp only [Prod.mk.injEq] at h2
    obtain ⟨hx, -, -⟩ := h2
    subst hx
    exact ⟨lt_of_le_of_lt ha0 hac, lt_of_lt_of_le hcb hb0⟩
  · injection h with h2
    simp only [Prod.mk.injEq] at h2
    obtain ⟨hx, -, -⟩ := h2
    subst hx
    exact ⟨lt_of_le_of_lt ha0 had, lt_of_lt_of_le hdb hb0⟩

/-- Witness for C10 at `f = id`, `[0, 1]`, `tol = 1/2`, `max_iter = 5`. -/
theorem golden_section_search_stays_inside_witness :
    (0 : ℝ) < 1 ∧
    ((∀ x ∈ (gsLoop (fun t : ℝ => t) gr (1 / 2) true 5
        (gssInit (fun t : ℝ => t) gr 0 1)).pts, (0 : ℝ) < x ∧ x < 1) ∧
    ∀ x y : ℝ, ∀ n : ℕ,
      golden_section_search (fun t : ℝ => t) 0 1 (1 / 2) 5 true =
        .ok (x, y, n) → (0 : ℝ) < x ∧ x < 1) :=
  ⟨by norm_num,
    golden_section_search_stays_inside (fun t => t) 0 1 (1 / 2) 5 true
      (by norm_num)⟩

/-- C5 (amended): after the loop exits the result is one of the two final
interior points with its cached function value, selected by
`(fc < fd) == minimize`: when minimising, `(c, fc)` exactly when
`fc < fd`; when maximising, `(c, fc)` exactly when `fd ≤ fc` — so an
exact tie goes to `(d, fd)` when minimising but to `(c, fc)` when
maximising. -/
theorem golden_section_search_selection (f : ℝ → ℝ) (a b tol : ℝ)
    (max_iter : ℕ) (minimize : Bool) (hab : a < b) :
    ∃ s : GSState ℝ,
      s = gsLoop f gr tol minimize max_iter (gssInit f gr a b) ∧
      s.fc = f s.c ∧ s.fd = f s.d ∧
      golden_section_search f a b tol max_iter minimize =
        .ok (if minimize = true then
               if s.fc < s.fd then (s.c, s.fc, s.it) else (s.d, s.fd, s.it)
             else
               if s.fd ≤ s.fc then (s.c, s.fc, s.it)
               else (s.d, s.fd, s.it)) := by
  have hgood : GoodState f gr a b
      (gsLoop f gr tol minimize max_iter (gssInit f gr a b)) :=
    gsLoop_invariant f gr tol minimize max_iter
      (fun s => GoodState f gr a b s)
      (fun s _ _ hs => gsStep_good gr_half gr_lt_one gr_sq minimize hs) _
      (gssInit_good gr_half gr_lt_one hab)
  refine ⟨gsLoop f gr tol minimize max_iter (gssInit f gr a b), rfl,
    hgood.2.2.2.2.2.1, hgood.2.2.2.2.2.2.1, ?_⟩
  unfold golden_section_search
  rw [if_neg (not_le.mpr hab)]
  unfold gssSelect
  cases minimize with
  | true =>
    by_cases h : (gsLoop f gr tol true max_iter (gssInit f gr a b)).fc <
        (gsLoop f gr tol true max_iter (gssInit f gr a b)).fd
    · rw [if_pos (decide_eq_true h), if_pos rfl, if_pos h]
    · rw [if_neg (by rw [decide_eq_false h]; simp), if_pos rfl, if_neg h]
  | false =>
    by_cases h : (gsLoop f gr tol false max_iter (gssInit f gr a b)).fc <
        (gsLoop f gr tol false max_iter (gssInit f gr a b)).fd
    · rw [if_neg (by rw [decide_eq_true h]; simp),
        if_neg (by simp), if_neg (not_le.mpr h)]
    · rw [if_pos (decide_eq_false h), if_neg (by simp),
        if_pos (not_lt.mp h)]

/-- Witness for C5's amended theorem at `f = id`, `[0, 1]`, `tol = 1/2`,
`max_iter = 5`, minimising. -/
theorem golden_section_search_selection_witness :
    (0 : ℝ) < 1 ∧
    ∃ s : GSState ℝ,
      s = gsLoop (fun t : ℝ => t) gr (1 / 2) true 5
        (gssInit (fun t : ℝ => t) gr 0 1) ∧
      s.fc = s.c ∧ s.fd = s.d ∧
      golden_section_search (fun t : ℝ => t) 0 1 (1 / 2) 5 true =
        .ok (if true = true then
               if s.fc < s.fd then (s.c, s.fc, s.it) else (s.d, s.fd, s.it)
             else
               if s.fd ≤ s.fc then (s.c, s.fc, s.it)
               else (s.d, s.fd, s.it)) :=
  ⟨by norm_num,
    golden_section_search_selection (fun t => t) 0 1 (1 / 2) 5 true
      (by norm_num)⟩

/-- Counterexample to C5 as stated: with the constant function `0` on
`[0, 1]`, `max_iter = 0` and maximising, the final cached values are an
exact tie (`fc = fd = 0`), so `(c, fc)` does not have the larger value,
and the claim would require returning `(d, fd)` with `d = gr`; the code
returns `(c, fc)` with `c = 1 - gr ≠ gr`. -/
theorem golden_section_search_selection_tie :
    (gssInit (fun _ : ℝ => (0 : ℝ)) gr 0 1).fc =
      (gssInit (fun _ : ℝ => (0 : ℝ)) gr 0 1).fd ∧
    (gssInit (fun _ : ℝ => (0 : ℝ)) gr 0 1).c = 1 - gr ∧
    (gssInit (fun _ : ℝ => (0 : ℝ)) gr 0 1).d = gr ∧
    golden_section_search (fun _ : ℝ => (0 : ℝ)) 0 1 1 0 false =
      .ok (1 - gr, 0, 0) ∧
    1 - gr ≠ gr := by
  have hc : (gssInit (fun _ : ℝ => (0 : ℝ)) gr 0 1).c = 1 - gr := by
    show 1 - gr * (1 - 0) = 1 - gr
    ring
  have hd : (gssInit (fun _ : ℝ => (0 : ℝ)) gr 0 1).d = gr := by
    show 0 + gr * (1 - 0) = gr
    ring
  have hfc : (gssInit (fun _ : ℝ => (0 : ℝ)) gr 0 1).fc = 0 := rfl
  have hfd : (gssInit (fun _ : ℝ => (0 : ℝ)) gr 0 1).fd = 0 := rfl
  have hne : (1 : ℝ) - gr ≠ gr := by
    have := gr_half
    intro hcon
    linarith
  have hloop : gsLoop (fun _ : ℝ => (0 : ℝ)) gr 1 false 0
      (gssInit (fun _ : ℝ => (0 : ℝ)) gr 0 1) =
      gssInit (fun _ : ℝ => (0 : ℝ)) gr 0 1 := by
    rw [gsLoop_eq, if_neg]
    rintro ⟨-, hlt⟩
    have h0 : (gssInit (fun _ : ℝ => (0 : ℝ)) gr 0 1).it = 0 := rfl
    omega
  refine ⟨rfl, hc, hd, ?_, hne⟩
  unfold golden_section_search
  rw [if_neg (by norm_num), hloop]
  unfold gssSelect
  rw [if_pos (by rw [hfc, hfd]; exact decide_eq_false (lt_irrefl 0)), hc,
    hfc]
  rfl

/-- C6 (amended): minimising `f` and maximising `-f` run through identical
loop states (up to negation of the cached values), return the same
iteration count and `f_opt` values that are exact negatives; the two
`x_opt` values coincide whenever the final cached values are not an exact
tie, and they are within `tol` of each other whenever the loop exited by
convergence (`iterations < max_iter`).  When the iteration cap is hit with
a final exact tie, the two `x_opt` may differ by more than `tol`. -/
theorem golden_section_search_direction_symmetry (f : ℝ → ℝ)
    (a b tol : ℝ) (max_iter : ℕ) (hab : a < b) (htol : 0 < tol) :
    ∃ (x1 y : ℝ) (n : ℕ) (x2 : ℝ),
      golden_section_search f a b tol max_iter true = .ok (x1, y, n) ∧
      golden_section_search (fun t => -(f t)) a b tol max_iter false =
        .ok (x2, -y, n) ∧
      ((gsLoop f gr tol true max_iter (gssInit f gr a b)).fc ≠
          (gsLoop f gr tol true max_iter (gssInit f gr a b)).fd →
        x2 = x1) ∧
      (n < max_iter → |x1 - x2| ≤ tol) := by
  have hne : ¬ a ≥ b := not_le.mpr hab
  have hrun1 : golden_section_search f a b tol max_iter true =
      .ok (gssSelect true (gsLoop f gr tol true max_iter
        (gssInit f gr a b))) := by
    unfold golden_section_search
    rw [if_neg hne]
  have hrun2 : golden_section_search (fun t => -(f t)) a b tol max_iter
      false = .ok (gssSelect false (negState (gsLoop f gr tol true max_iter
        (gssInit f gr a b)))) := by
    unfold golden_section_search
    rw [if_neg hne, gssInit_neg, gsLoop_neg]
  have hgood : GoodState f gr a b
      (gsLoop f gr tol true max_iter (gssInit f gr a b)) :=
    gsLoop_invariant f gr tol true max_iter
      (fun s => GoodState f gr a b s)
      (fun s _ _ hs => gsStep_good gr_half gr_lt_one gr_sq true hs) _
      (gssInit_good gr_half gr_lt_one hab)
  have hexit := gsLoop_exit f gr tol true max_iter (gssInit f gr a b)
  set s := gsLoop f gr tol true max_iter (gssInit f gr a b) with hs
  obtain ⟨ha0, hb0, habs, hc, hd, hfc, hfd, hpts⟩ := hgood
  have hL : 0 < s.b - s.a := sub_pos.mpr habs
  have hdc : s.d - s.c = (2 * gr - 1) * (s.b - s.a) := by
    rw [hc, hd]
    ring
  have hdcpos : 0 ≤ s.d - s.c := by
    rw [hdc]
    nlinarith [gr_half]
  have hdcle : s.d - s.c ≤ s.b - s.a := by
    rw [hdc]
    nlinarith [gr_lt_one, gr_half]
  have hlen : s.it < max_iter → s.b - s.a ≤ tol := by
    intro hlt
    by_contra hgt
    push_neg at hgt
    exact hexit ⟨hgt, hlt⟩
  by_cases h : s.fc < s.fd
  · have e1 : gssSelect true s = (s.c, s.fc, s.it) := by
      unfold gssSelect
      rw [if_pos (decide_eq_true h)]
    have e2 : gssSelect false (negState s) =
        ((negState s).c, (negState s).fc, (negState s).it) := by
      unfold gssSelect
      rw [if_pos (decide_eq_false (show ¬ (negState s).fc < (negState s).fd
        from fun hlt => lt_asymm h (neg_lt_neg_iff.mp hlt)))]
    refine ⟨s.c, s.fc, s.it, s.c, by rw [hrun1, e1],
      by rw [hrun2, e2, negState_c, negState_fc, negState_it],
      fun _ => rfl, fun hlt => ?_⟩
    rw [sub_self, abs_zero]
    linarith [hlen hlt]
  · by_cases heq : s.fc = s.fd
    · have e1 : gssSelect true s = (s.d, s.fd, s.it) := by
        unfold gssSelect
        rw [if_neg (by rw [decide_eq_false h]; simp)]
      have e2 : gssSelect false (negState s) =
          ((negState s).c, (negState s).fc, (negState s).it) := by
        unfold gssSelect
        rw [if_pos (decide_eq_false (show ¬ (negState s).fc < (negState s).fd
          from fun hlt => absurd (neg_lt_neg_iff.mp hlt) (heq ▸ lt_irrefl _)))]
      refine ⟨s.d, s.fd, s.it, s.c, by rw [hrun1, e1], ?_,
        fun hne2 => absurd heq hne2, fun hlt => ?_⟩
      · rw [hrun2, e2, negState_c, negState_fc, negState_it, heq]
      · rw [abs_of_nonneg hdcpos]
        linarith [hlen hlt]
    · have hgt : s.fd < s.fc :=
        lt_of_le_of_ne (not_lt.mp h) (fun hh => heq hh.symm)
      have e1 : gssSelect true s = (s.d, s.fd, s.it) := by
        unfold gssSelect
        rw [if_neg (by rw [decide_eq_false h]; simp)]
      have e2 : gssSelect false (negState s) =
          ((negState s).d, (negState s).fd, (negState s).it) := by
        unfold gssSelect
        rw [if_neg (by rw [decide_eq_true
          (show (negState s).fc < (negState s).fd from
            neg_lt_neg_iff.mpr hgt)]; simp)]
      refine ⟨s.d, s.fd, s.it, s.d, by rw [hrun1, e1],
        by rw [hrun2, e2, negState_d, negState_fd, negState_it],
        fun _ => rfl, fun hlt => ?_⟩
      rw [sub_self, abs_zero]
      linarith [hlen hlt]

/-- Witness for C6's amended theorem at `f = id`, `[0, 1]`, `tol = 1/2`,
`max_iter = 5`. -/
theorem golden_section_search_direction_symmetry_witness :
    (0 : ℝ) < 1 ∧ (0 : ℝ) < 1 / 2 ∧
    ∃ (x1 y : ℝ) (n : ℕ) (x2 : ℝ),
      golden_section_search (fun t : ℝ => t) 0 1 (1 / 2) 5 true =
        .ok (x1, y, n) ∧
      golden_section_search (fun t : ℝ => -t) 0 1 (1 / 2) 5 false =
        .ok (x2, -y, n) ∧
      ((gsLoop (fun t : ℝ => t) gr (1 / 2) true 5
          (gssInit (fun t : ℝ => t) gr 0 1)).fc ≠
        (gsLoop (fun t : ℝ => t) gr (1 / 2) true 5
          (gssInit (fun t : ℝ => t) gr 0 1)).fd → x2 = x1) ∧
      (n < 5 → |x1 - x2| ≤ 1 / 2) :=
  ⟨by norm_num, by norm_num,
    golden_section_search_direction_symmetry (fun t => t) 0 1 (1 / 2) 5
      (by norm_num) (by norm_num)⟩

/-- Counterexample to C6 as stated: with the constant function `0` on
`[0, 1]`, `tol = 1/10` and `max_iter = 0`, minimising `f` returns
`x_opt = gr` while maximising `-f` returns `x_opt = 1 - gr`, and these
differ by `2*gr - 1 = √5 - 2 > 1/10`, i.e. by more than the tolerance. -/
theorem golden_section_search_direction_tie :
    golden_section_search (fun _ : ℝ => (0 : ℝ)) 0 1 (1 / 10) 0 true =
      .ok (gr, 0, 0) ∧
    golden_section_search (fun t : ℝ => -((0 : ℝ))) 0 1 (1 / 10) 0 false =
      .ok (1 - gr, 0, 0) ∧
    ¬ |gr - (1 - gr)| ≤ (1 / 10 : ℝ) := by
  have hc : (gssInit (fun _ : ℝ => (0 : ℝ)) gr 0 1).c = 1 - gr := by
    show 1 - gr * (1 - 0) = 1 - gr
    ring
  have hd : (gssInit (fun _ : ℝ => (0 : ℝ)) gr 0 1).d = gr := by
    show 0 + gr * (1 - 0) = gr
    ring
  have hfc : (gssInit (fun _ : ℝ => (0 : ℝ)) gr 0 1).fc = 0 := rfl
  have hfd : (gssInit (fun _ : ℝ => (0 : ℝ)) gr 0 1).fd = 0 := rfl
  have hloop : ∀ m : Bool, gsLoop (fun _ : ℝ => (0 : ℝ)) gr (1 / 10) m 0
      (gssInit (fun _ : ℝ => (0 : ℝ)) gr 0 1) =
      gssInit (fun _ : ℝ => (0 : ℝ)) gr 0 1 := by
    intro m
    rw [gsLoop_eq, if_neg]
    rintro ⟨-, hlt⟩
    have h0 : (gssInit (fun _ : ℝ => (0 : ℝ)) gr 0 1).it = 0 := rfl
    omega
  have hcn : (gssInit (fun t : ℝ => -((0 : ℝ))) gr 0 1).c = 1 - gr := by
    show 1 - gr * (1 - 0) = 1 - gr
    ring
  have hfcn : (gssInit (fun t : ℝ => -((0 : ℝ))) gr 0 1).fc = 0 := neg_zero
  have hfdn : (gssInit (fun t : ℝ => -((0 : ℝ))) gr 0 1).fd = 0 := neg_zero
  have hloopn : gsLoop (fun t : ℝ => -((0 : ℝ))) gr (1 / 10) false 0
      (gssInit (fun t : ℝ => -((0 : ℝ))) gr 0 1) =
      gssInit (fun t : ℝ => -((0 : ℝ))) gr 0 1 := by
    rw [gsLoop_eq, if_neg]
    rintro ⟨-, hlt⟩
    have h0 : (gssInit (fun t : ℝ => -((0 : ℝ))) gr 0 1).it = 0 := rfl
    omega
  have hcond1 : ¬ (decide ((gssInit (fun _ : ℝ => (0 : ℝ)) gr 0 1).fc <
      (gssInit (fun _ : ℝ => (0 : ℝ)) gr 0 1).fd) = true) := by
    rw [hfc, hfd, decide_eq_false (lt_irrefl (0 : ℝ))]
    simp
  have hcond2 : decide ((gssInit (fun t : ℝ => -((0 : ℝ))) gr 0 1).fc <
      (gssInit (fun t : ℝ => -((0 : ℝ))) gr 0 1).fd) = false := by
    rw [hfcn, hfdn]
    exact decide_eq_false (lt_irrefl 0)
  refine ⟨?_, ?_, ?_⟩
  · unfold golden_section_search
    rw [if_neg (by norm_num), hloop]
    unfold gssSelect
    rw [if_neg hcond1, hd, hfd]
    rfl
  · unfold golden_section_search
    rw [if_neg (by norm_num), hloopn]
    unfold gssSelect
    rw [if_pos hcond2, hcn, hfcn]
    rfl
  · have h21 : (21 / 10 : ℝ) < Real.sqrt 5 :=
      (Real.lt_sqrt (by norm_num)).mpr (by norm_num)
    have hval : gr - (1 - gr) = Real.sqrt 5 - 2 := by
      unfold gr
      ring
    rw [hval, abs_of_pos (by linarith)]
    intro hcon
    linarith

/-- C9: the engine raises only for the precondition `a ≥ b`; any failure
of `f` propagates to the caller unchanged (every error the search returns
on a valid interval is an error produced by `f` itself); when `f` never
fails anywhere the fallible run coincides with the total run; and
whenever `f` never fails on `[a, b]` the engine returns normally. -/
theorem golden_section_search_failure_semantics
    (f : ℝ → Except String ℝ) (a b tol : ℝ) (max_iter : ℕ)
    (minimize : Bool) :
    (b ≤ a → golden_section_searchE f a b tol max_iter minimize =
      .error "Require a < b for the search interval") ∧
    (a < b → ∀ e, golden_section_searchE f a b tol max_iter minimize =
      .error e → ∃ x, f x = .error e) ∧
    (∀ g : ℝ → ℝ, (∀ x, f x = .ok (g x)) →
      golden_section_searchE f a b tol max_iter minimize =
        golden_section_search g a b tol max_iter minimize) ∧
    (a < b → (∀ x, a ≤ x → x ≤ b → ∃ v, f x = .ok v) →
      ∃ r, golden_section_searchE f a b tol max_iter minimize = .ok r) := by
  have hpure : ∀ g : ℝ → ℝ, (∀ x, f x = .ok (g x)) →
      golden_section_searchE f a b tol max_iter minimize =
        golden_section_search g a b tol max_iter minimize := by
    intro g hg
    unfold golden_section_searchE golden_section_search
    by_cases hab : a ≥ b
    · rw [if_pos hab, if_pos hab]
    · rw [if_neg hab, if_neg hab]
      dsimp only
      rw [hg, hg]
      dsimp only
      rw [gsLoopE_ok hg]
      rfl
  refine ⟨?_, ?_, hpure, ?_⟩
  · intro hab
    unfold golden_section_searchE
    rw [if_pos hab]
  · intro hab e h
    unfold golden_section_searchE at h
    rw [if_neg (not_le.mpr hab)] at h
    dsimp only at h
    split at h
    · next heq =>
      injection h with h2
      subst h2
      exact ⟨_, heq⟩
    · split at h
      · next heq =>
        injection h with h2
        subst h2
        exact ⟨_, heq⟩
      · split at h
        · next heq =>
          injection h with h2
          subst h2
          exact gsLoopE_error _ heq
        · injection h
  · intro hab hf
    have hg : ∀ x, a < x → x < b → f x = .ok (orZero f x) := by
      intro x hx1 hx2
      obtain ⟨v, hv⟩ := hf x hx1.le hx2.le
      rw [hv, orZero_ok hv]
    have hgood0 : GoodState (orZero f) gr a b
        (gssInit (orZero f) gr a b) :=
      gssInit_good gr_half gr_lt_one hab
    have hmem := hgood0.2.2.2.2.2.2.2
    have hcb : a < b - gr * (b - a) ∧ b - gr * (b - a) < b :=
      hmem (b - gr * (b - a)) (List.mem_cons_self _ _)
    have hdb : a < a + gr * (b - a) ∧ a + gr * (b - a) < b :=
      hmem (a + gr * (b - a))
        (List.mem_cons_of_mem _ (List.mem_cons_self _ _))
    refine ⟨gssSelect minimize (gsLoop (orZero f) gr tol minimize max_iter
      (gssInit (orZero f) gr a b)), ?_⟩
    unfold golden_section_searchE
    rw [if_neg (not_le.mpr hab)]
    dsimp only
    rw [hg _ hcb.1 hcb.2]
    dsimp only
    rw [hg _ hdb.1 hdb.2]
    dsimp only
    have heq := gsLoopE_ok_on gr_half gr_lt_one gr_sq hg tol minimize
      max_iter
      (⟨a, b, b - gr * (b - a), a + gr * (b - a),
        orZero f (b - gr * (b - a)), orZero f (a + gr * (b - a)), 0,
        [b - gr * (b - a), a + gr * (b - a)]⟩ : GSState ℝ)
      hgood0
    rw [heq]
    rfl

/-- Witness for C9 at a never-failing `f` on `[0, 1]` and at the invalid
interval `[5, -5]`. -/
theorem golden_section_search_failure_semantics_witness :
    golden_section_searchE (fun _ : ℝ => .ok 1) 0 1 (1 / 2) 3 true =
      golden_section_search (fun _ : ℝ => 1) 0 1 (1 / 2) 3 true ∧
    (∃ r, golden_section_searchE (fun _ : ℝ => .ok 1) 0 1 (1 / 2) 3 true =
      .ok r) ∧
    golden_section_searchE (fun _ : ℝ => .ok 1) 5 (-5) (1 / 2) 3 true =
      .error "Require a < b for the search interval" :=
  ⟨(golden_section_search_failure_semantics (fun _ => .ok 1) 0 1 (1 / 2) 3
      true).2.2.1 (fun _ => 1) (fun _ => rfl),
   (golden_section_search_failure_semantics (fun _ => .ok 1) 0 1 (1 / 2) 3
      true).2.2.2 (by norm_num) (fun x h1 h2 => ⟨1, rfl⟩),
   (golden_section_search_failure_semantics (fun _ => .ok 1) 5 (-5) (1 / 2)
      3 true).1 (by norm_num)⟩

end GoldenSection
